import Mathlib

/-!
Verification of the company-matcher scoring and decision engine
(src/company_match/pipeline/{scoring.py, matching.py, config.py,
logging_utils.py}).

Modelling conventions:
* Python floats are modelled as exact rationals.  Python float division
  raises ZeroDivisionError when the denominator is zero, so fallible code
  is embedded in the Except monad.
* The external libraries are parameters of the embedding:
  - rapidfuzz.fuzz.ratio becomes a parameter of type String to String to
    Rat (documented range 0..100);
  - metaphone.doublemetaphone becomes a parameter of type String to
    String x String (primary code, alternate code, either may be empty);
  - elk_log (logging_utils.py) performs file IO and may raise, e.g. when
    LOG_FILE cannot be opened; it becomes a sink parameter of type
    LogEntry to Except String Unit.
* Elasticsearch hits become a structure with the fields the code reads.
-/

namespace CompanyMatch

/-- The inner payload of an ES hit, mirroring the subobject that the code
reads at key "_source": only the field "company_name" is accessed. -/
structure Source where
  company_name : String
deriving DecidableEq, Repr

/-- An Elasticsearch hit as used by the pipeline: the code reads the keys
"_score" (a float, modelled as a rational) and "_source". -/
structure Hit where
  _score : ℚ
  _source : Source
deriving DecidableEq, Repr

/-- config.py line 16: THRESHOLD_ACCEPT = 0.55. -/
def THRESHOLD_ACCEPT : ℚ := 0.55

/-- config.py line 17: THRESHOLD_HIGH = 0.75. -/
def THRESHOLD_HIGH : ℚ := 0.75

/-- scoring.py, es_confidence(hits): dominance of the top hit.
Empty list gives (None, 0.0); a single hit gives (hit, 1.0); otherwise
top / max(top, nxt), which in Python raises ZeroDivisionError when
max(top, nxt) == 0, modelled as the error branch. -/
def es_confidence (hits : List Hit) : Except String (Option Hit × ℚ) :=
  match hits with
  | [] => .ok (none, 0)
  | [b] => .ok (some b, 1)
  | b :: h2 :: _ =>
    let top := b._score
    let nxt := h2._score
    if max top nxt = 0 then
      .error ("ZeroDivisionError")
    else
      .ok (some b, top / max top nxt)

/-- Python str.lower as used by string_similarity, modelled as a
character-wise case fold. -/
def lower (s : String) : String := String.mk (s.data.map Char.toLower)

/-- Loop body of string_similarity: compare the lowercased query with the
lowercased company_name of the hit and keep the hit on a strict
improvement (the Python condition v > score). -/
def string_step (ratio : String → String → ℚ) (q : String)
    (acc : Option Hit × ℚ) (h : Hit) : Option Hit × ℚ :=
  let v := ratio (lower q) (lower h._source.company_name)
  if acc.2 < v then (some h, v) else acc

/-- scoring.py, string_similarity(q, hits): iterate the hits keeping the
hit of strictly greatest rapidfuzz ratio between the lowercased query and
the lowercased company_name; `ratio` is the rapidfuzz.fuzz.ratio
parameter.  Starts at (None, 0), updates only on a strict improvement. -/
def string_similarity (ratio : String → String → ℚ) (q : String)
    (hits : List Hit) : Option Hit × ℚ :=
  hits.foldl (string_step ratio q) (none, 0)

/-- Per-candidate score of the phonetic_similarity loop: encode the hit
with doublemetaphone (parameter `dm`) as (np, na) and sum the bonuses
+70 when qp == np, +60 when qa == np, +50 when qp == na — plain string
equality, with no guard for empty codes. -/
def phonetic_sc (dm : String → String × String) (qp qa : String)
    (h : Hit) : ℕ :=
  let np := (dm h._source.company_name).1
  let na := (dm h._source.company_name).2
  (if qp = np then 70 else 0) + (if qa = np then 60 else 0)
    + (if qp = na then 50 else 0)

/-- Loop body of phonetic_similarity: keep the hit of strictly greatest
accumulated score (the Python condition sc > score). -/
def phonetic_step (dm : String → String × String) (qp qa : String)
    (acc : Option Hit × ℕ) (h : Hit) : Option Hit × ℕ :=
  let sc := phonetic_sc dm qp qa h
  if acc.2 < sc then (some h, sc) else acc

/-- scoring.py, phonetic_similarity(q, hits): empty list gives (None, 0);
otherwise encode the query once with doublemetaphone as (qp, qa) and fold
the per-candidate scores, starting from (None, 0). -/
def phonetic_similarity (dm : String → String × String) (q : String)
    (hits : List Hit) : Option Hit × ℕ :=
  match hits with
  | [] => (none, 0)
  | _ :: _ =>
    hits.foldl (phonetic_step dm (dm q).1 (dm q).2) (none, 0)

/-- scoring.py, combined_score(es_c, str_s, ph_s):
0.6 * es_c + 0.3 * (str_s / 100) + 0.1 * (ph_s / 100). -/
def combined_score (es_c : ℚ) (str_s : ℚ) (ph_s : ℚ) : ℚ :=
  0.6 * es_c + 0.3 * (str_s / 100) + 0.1 * (ph_s / 100)

/-- The confidence tier of a decision ("level" in matching.py). -/
inductive Level where
  | HIGH
  | MEDIUM
  | LOW
deriving DecidableEq, Repr

/-- The reason code of a decision ("reason" in matching.py). -/
inductive Reason where
  | HIGH_ES_CONFIDENCE
  | STRING_SIMILARITY_USED
  | PHONETIC_FALLBACK_USED
  | WEAK_MATCH
deriving DecidableEq, Repr

/-- The accept/reject status of a decision ("status" in matching.py). -/
inductive Status where
  | ACCEPTED
  | REJECTED
deriving DecidableEq, Repr

/-- The dict returned by match(q) in matching.py; the Python key "match"
is the field `matched` (match is a Lean keyword). -/
structure MatchDecision where
  matched : Option String
  confidence : ℚ
  level : Level
  reason : Reason
  status : Status
deriving DecidableEq, Repr

/-- The document handed to elk_log by match (logging_utils.py builds the
JSON line from these fields; the wall-clock timestamp that elk_log adds
is not modelled).  Note the code passes the decision status as elk_log's
`level` keyword argument. -/
structure LogEntry where
  event : String
  input : String
  matched : Option String
  score : ℚ
  reason : Reason
  level : Status
deriving DecidableEq, Repr

/-- matching.py, match(q), with the candidate list made explicit (the
code obtains it from search_es(q)).  `ratio` and `dm` are the external
library parameters, `sink` is elk_log: the code calls elk_log with no
try/except, so a sink error propagates (the final match expression).
Mirrors the source order: signals, combined, level, reason,
result/status, elk_log, return. -/
def match_fn (ratio : String → String → ℚ) (dm : String → String × String)
    (sink : LogEntry → Except String Unit) (q : String) (hits : List Hit) :
    Except String MatchDecision :=
  match es_confidence hits with
  | .error e => .error e
  | .ok (es_best, es_c) =>
    let st_s := (string_similarity ratio q hits).2
    let ph_s := (phonetic_similarity dm q hits).2
    let combined := combined_score es_c st_s (ph_s : ℚ)
    let level :=
      if THRESHOLD_HIGH ≤ combined then Level.HIGH
      else if THRESHOLD_ACCEPT ≤ combined then Level.MEDIUM
      else Level.LOW
    let reason :=
      if THRESHOLD_HIGH ≤ es_c then Reason.HIGH_ES_CONFIDENCE
      else if (65 : ℚ) ≤ st_s then Reason.STRING_SIMILARITY_USED
      else if 50 ≤ ph_s then Reason.PHONETIC_FALLBACK_USED
      else Reason.WEAK_MATCH
    let rs :=
      if THRESHOLD_ACCEPT ≤ combined then
        (es_best.map (fun h => h._source.company_name), Status.ACCEPTED)
      else (none, Status.REJECTED)
    match sink ⟨"match_decision", q, rs.1, combined, reason, rs.2⟩ with
    | .error e => .error e
    | .ok _ => .ok ⟨rs.1, combined, level, reason, rs.2⟩

/-! Concrete instantiations of the external-library parameters, used to
evaluate the development on specific inputs.  Each agrees with the real
library at every input it is applied to below. -/

/-- Ratio giving 100 on equal strings and 0 otherwise; rapidfuzz
fuzz.ratio gives 100.0 on two equal strings, in particular on two empty
strings. -/
def ratio_eq : String → String → ℚ := fun a b => if a = b then 100 else 0

/-- Constantly zero ratio. -/
def ratio_zero : String → String → ℚ := fun _ _ => 0

/-- Constantly 50 ratio. -/
def ratio_fifty : String → String → ℚ := fun _ _ => 50

/-- Doublemetaphone stand-in: primary code is the string itself,
alternate code empty; on the empty string both codes are empty, exactly
as doublemetaphone returns on an input with no letters. -/
def dm0 : String → String × String := fun s =>
  if s = "" then ("", "") else (s, "")

/-- A sink whose write always succeeds (an elk_log whose append to
LOG_FILE works). -/
def sink_ok : LogEntry → Except String Unit := fun _ => .ok ()

/-- A sink whose write always fails (an elk_log whose open of LOG_FILE
raises, e.g. because the logs directory is absent). -/
def sink_fail : LogEntry → Except String Unit := fun _ => .error ("IOError")

/-! Helper lemmas about the three signal computations. -/

/-- When es_confidence returns without raising, the best hit it reports
is the head of the candidate list (index 0). -/
theorem es_confidence_ok_head (hits : List Hit) (eb : Option Hit) (c : ℚ)
    (h : es_confidence hits = .ok (eb, c)) : eb = hits.head? := by
  cases hits with
  | nil =>
    simp only [es_confidence, Except.ok.injEq, Prod.mk.injEq] at h
    simp [← h.1]
  | cons b t =>
    cases t with
    | nil =>
      simp only [es_confidence, Except.ok.injEq, Prod.mk.injEq] at h
      simp [← h.1]
    | cons h2 t2 =>
      simp only [es_confidence] at h
      split at h
      · exact absurd h (by simp)
      · simp only [Except.ok.injEq, Prod.mk.injEq] at h
        simp [← h.1]

/-- When es_confidence returns without raising and all relevance scores
are non-negative, the reported confidence lies in the unit interval. -/
theorem es_confidence_ok_bounds (hits : List Hit) (eb : Option Hit)
    (c : ℚ) (hs : ∀ h ∈ hits, 0 ≤ h._score)
    (h : es_confidence hits = .ok (eb, c)) : 0 ≤ c ∧ c ≤ 1 := by
  cases hits with
  | nil =>
    simp only [es_confidence, Except.ok.injEq, Prod.mk.injEq] at h
    constructor <;> simp [← h.2]
  | cons b t =>
    cases t with
    | nil =>
      simp only [es_confidence, Except.ok.injEq, Prod.mk.injEq] at h
      constructor <;> simp [← h.2]
    | cons h2 t2 =>
      have hb : 0 ≤ b._score := hs b (by simp)
      have hn : 0 ≤ h2._score := hs h2 (by simp)
      simp only [es_confidence] at h
      split at h
      · exact absurd h (by simp)
      · rename_i hmax
        simp only [Except.ok.injEq, Prod.mk.injEq] at h
        have hpos : 0 < max b._score h2._score :=
          lt_of_le_of_ne (le_trans hb (le_max_left _ _)) (Ne.symm hmax)
        constructor
        · rw [← h.2]
          exact div_nonneg hb hpos.le
        · rw [← h.2]
          exact div_le_one_of_le₀ (le_max_left _ _) hpos.le

/-- The string-similarity fold never decreases the running score. -/
theorem string_foldl_mono (r : String → String → ℚ) (q : String)
    (hits : List Hit) : ∀ acc : Option Hit × ℚ,
    acc.2 ≤ (hits.foldl (string_step r q) acc).2 := by
  induction hits with
  | nil => intro acc; simp
  | cons h t ih =>
    intro acc
    simp only [List.foldl_cons]
    refine le_trans ?_ (ih (string_step r q acc h))
    unfold string_step
    dsimp only
    split
    · rename_i hlt; exact le_of_lt hlt
    · exact le_refl _

/-- The string-similarity fold keeps the running score at most 100 when
the ratio function is bounded by 100. -/
theorem string_foldl_ub (r : String → String → ℚ) (q : String)
    (hr : ∀ a b, r a b ≤ 100) (hits : List Hit) :
    ∀ acc : Option Hit × ℚ, acc.2 ≤ 100 →
    (hits.foldl (string_step r q) acc).2 ≤ 100 := by
  induction hits with
  | nil => intro acc hacc; simpa using hacc
  | cons h t ih =>
    intro acc hacc
    simp only [List.foldl_cons]
    refine ih (string_step r q acc h) ?_
    unfold string_step
    dsimp only
    split
    · exact hr _ _
    · exact hacc

/-- The best string score is non-negative. -/
theorem string_similarity_nonneg (r : String → String → ℚ) (q : String)
    (hits : List Hit) : 0 ≤ (string_similarity r q hits).2 := by
  simpa [string_similarity] using string_foldl_mono r q hits (none, 0)

/-- The best string score is at most 100 when the ratio function is
bounded by 100. -/
theorem string_similarity_le (r : String → String → ℚ) (q : String)
    (hr : ∀ a b, r a b ≤ 100) (hits : List Hit) :
    (string_similarity r q hits).2 ≤ 100 := by
  simpa [string_similarity] using
    string_foldl_ub r q hr hits (none, 0) (by norm_num)

/-- A per-candidate phonetic score is at most 70 + 60 + 50 = 180. -/
theorem phonetic_sc_le (dm : String → String × String) (qp qa : String)
    (h : Hit) : phonetic_sc dm qp qa h ≤ 180 := by
  unfold phonetic_sc
  dsimp only
  split_ifs <;> norm_num

/-- The phonetic fold never decreases the running score. -/
theorem phonetic_foldl_mono (dm : String → String × String)
    (qp qa : String) (hits : List Hit) : ∀ acc : Option Hit × ℕ,
    acc.2 ≤ (hits.foldl (phonetic_step dm qp qa) acc).2 := by
  induction hits with
  | nil => intro acc; simp
  | cons h t ih =>
    intro acc
    simp only [List.foldl_cons]
    refine le_trans ?_ (ih (phonetic_step dm qp qa acc h))
    unfold phonetic_step
    dsimp only
    split
    · rename_i hlt; exact le_of_lt hlt
    · exact le_refl _

/-- The phonetic fold keeps the running score at most 180. -/
theorem phonetic_foldl_ub (dm : String → String × String)
    (qp qa : String) (hits : List Hit) : ∀ acc : Option Hit × ℕ,
    acc.2 ≤ 180 → (hits.foldl (phonetic_step dm qp qa) acc).2 ≤ 180 := by
  induction hits with
  | nil => intro acc hacc; simpa using hacc
  | cons h t ih =>
    intro acc hacc
    simp only [List.foldl_cons]
    refine ih (phonetic_step dm qp qa acc h) ?_
    unfold phonetic_step
    dsimp only
    split
    · exact phonetic_sc_le dm qp qa h
    · exact hacc

/-- The phonetic fold result dominates the per-candidate score of every
member of the list. -/
theorem phonetic_foldl_mem (dm : String → String × String)
    (qp qa : String) (hits : List Hit) : ∀ (acc : Option Hit × ℕ)
    (h : Hit), h ∈ hits →
    phonetic_sc dm qp qa h ≤ (hits.foldl (phonetic_step dm qp qa) acc).2 := by
  induction hits with
  | nil => intro acc h hmem; exact absurd hmem (by simp)
  | cons a t ih =>
    intro acc h hmem
    simp only [List.foldl_cons]
    rcases List.mem_cons.mp hmem with rfl | hmem
    · refine le_trans ?_ (phonetic_foldl_mono dm qp qa t _)
      unfold phonetic_step
      dsimp only
      split
      · exact le_refl _
      · rename_i hnlt; exact Nat.le_of_not_lt hnlt
    · exact ih _ h hmem

/-- The best phonetic score is at most 180. -/
theorem phonetic_similarity_le (dm : String → String × String)
    (q : String) (hits : List Hit) :
    (phonetic_similarity dm q hits).2 ≤ 180 := by
  cases hits with
  | nil => simp [phonetic_similarity]
  | cons a t =>
    simpa [phonetic_similarity] using
      phonetic_foldl_ub dm (dm q).1 (dm q).2 (a :: t) (none, 0) (by norm_num)

/-- Elimination principle for a successful match: when match_fn returns a
decision, its fields are exactly the source formulas, with the
dominance-best hit being the head of the candidate list. -/
theorem match_fn_ok_spec {ratio : String → String → ℚ}
    {dm : String → String × String} {sink : LogEntry → Except String Unit}
    {q : String} {hits : List Hit} {d : MatchDecision}
    (hm : match_fn ratio dm sink q hits = .ok d) :
    ∃ es_c, es_confidence hits = .ok (hits.head?, es_c) ∧
      d.confidence = combined_score es_c (string_similarity ratio q hits).2
        ((phonetic_similarity dm q hits).2 : ℚ) ∧
      d.level = (if THRESHOLD_HIGH ≤ d.confidence then Level.HIGH
        else if THRESHOLD_ACCEPT ≤ d.confidence then Level.MEDIUM
        else Level.LOW) ∧
      d.reason = (if THRESHOLD_HIGH ≤ es_c then Reason.HIGH_ES_CONFIDENCE
        else if (65 : ℚ) ≤ (string_similarity ratio q hits).2 then
          Reason.STRING_SIMILARITY_USED
        else if 50 ≤ (phonetic_similarity dm q hits).2 then
          Reason.PHONETIC_FALLBACK_USED
        else Reason.WEAK_MATCH) ∧
      d.status = (if THRESHOLD_ACCEPT ≤ d.confidence then Status.ACCEPTED
        else Status.REJECTED) ∧
      d.matched = (if THRESHOLD_ACCEPT ≤ d.confidence then
        hits.head?.map (fun h => h._source.company_name) else none) := by
  unfold match_fn at hm
  cases hes : es_confidence hits with
  | error e => rw [hes] at hm; exact absurd hm (by simp)
  | ok p =>
    obtain ⟨eb, es_c⟩ := p
    have heb : eb = hits.head? := es_confidence_ok_head hits eb es_c hes
    rw [hes] at hm
    dsimp only at hm
    split at hm
    · exact absurd hm (by simp)
    · simp only [Except.ok.injEq] at hm
      subst hm
      subst heb
      refine ⟨es_c, rfl, rfl, ?_, ?_, ?_, ?_⟩ <;>
        first
          | rfl
          | (dsimp only; split <;> rfl)

/-! Claim theorems. -/

/-- C1 (amended): for every query and candidate list with non-negative
relevance scores and a ratio function ranging in [0,100], the combined
confidence returned by match lies in [0, 27/25]: the phonetic score can
reach 180 (all three bonuses at once), so the upper bound is
0.6 + 0.3 + 0.1 * 180/100 = 1.08, not 1. -/
theorem C1_amended {ratio : String → String → ℚ}
    {dm : String → String × String} {sink : LogEntry → Except String Unit}
    {q : String} {hits : List Hit} {d : MatchDecision}
    (hscore : ∀ h ∈ hits, 0 ≤ h._score)
    (hratio : ∀ a b, 0 ≤ ratio a b ∧ ratio a b ≤ 100)
    (hm : match_fn ratio dm sink q hits = .ok d) :
    0 ≤ d.confidence ∧ d.confidence ≤ 27/25 := by
  obtain ⟨es_c, hes, hconf, -, -, -, -⟩ := match_fn_ok_spec hm
  obtain ⟨hc0, hc1⟩ := es_confidence_ok_bounds hits _ es_c hscore hes
  have hs0 := string_similarity_nonneg ratio q hits
  have hs1 := string_similarity_le ratio q (fun a b => (hratio a b).2) hits
  have hp1 : ((phonetic_similarity dm q hits).2 : ℚ) ≤ 180 := by
    exact_mod_cast phonetic_similarity_le dm q hits
  have hp0 : (0 : ℚ) ≤ ((phonetic_similarity dm q hits).2 : ℚ) := by
    positivity
  rw [hconf]
  unfold combined_score
  constructor
  · nlinarith
  · nlinarith

/-- C1 (counterexample): on the query with empty metaphone codes matched
against a single candidate whose name also has empty codes, all three
phonetic bonuses fire (empty equals empty), the phonetic score is 180,
and match returns combined confidence 27/25 = 1.08 > 1: the claimed
interval [0,1] is exceeded.  ratio_eq and dm0 agree with rapidfuzz and
doublemetaphone on the inputs used: fuzz.ratio of two empty strings is
100 and doublemetaphone of the empty string is a pair of empty codes. -/
theorem C1_counterexample :
    match_fn ratio_eq dm0 sink_ok "" [⟨1, ⟨""⟩⟩] =
      .ok ⟨some "", 27/25, Level.HIGH, Reason.HIGH_ES_CONFIDENCE,
        Status.ACCEPTED⟩ ∧
    ¬ ((27 : ℚ)/25 ≤ 1) := by
  constructor
  · simp [match_fn, es_confidence, string_similarity, string_step,
      phonetic_similarity, phonetic_step, phonetic_sc, combined_score,
      THRESHOLD_ACCEPT, THRESHOLD_HIGH, lower, ratio_eq, dm0, sink_ok]
    norm_num
  · norm_num

/-- C1 (witness): the amended bound is realized on a concrete run. -/
theorem C1_amended_witness :
    0 ≤ (MatchDecision.mk (some "") (27/25) Level.HIGH
      Reason.HIGH_ES_CONFIDENCE Status.ACCEPTED).confidence ∧
    (MatchDecision.mk (some "") (27/25) Level.HIGH
      Reason.HIGH_ES_CONFIDENCE Status.ACCEPTED).confidence ≤ 27/25 := by
  refine @C1_amended ratio_eq dm0 sink_ok "" [⟨1, ⟨""⟩⟩]
    ⟨some "", 27/25, Level.HIGH, Reason.HIGH_ES_CONFIDENCE,
      Status.ACCEPTED⟩ ?_ ?_ ?_
  · intro h hmem
    simp only [List.mem_singleton] at hmem
    subst hmem
    norm_num
  · intro a b
    unfold ratio_eq
    split <;> norm_num
  · simp [match_fn, es_confidence, string_similarity, string_step,
      phonetic_similarity, phonetic_step, phonetic_sc, combined_score,
      THRESHOLD_ACCEPT, THRESHOLD_HIGH, lower, ratio_eq, dm0, sink_ok]
    norm_num

/-- C2: the division in es_confidence is not guarded.  On a candidate
list of two hits whose top and runner-up relevance scores are both zero,
the code evaluates 0 / max(0, 0) and raises ZeroDivisionError instead of
returning confidence 0.0. -/
theorem C2_zero_division :
    es_confidence [⟨0, ⟨"Acme Corp"⟩⟩, ⟨0, ⟨"Acme Corporation"⟩⟩] =
      .error ("ZeroDivisionError") := by
  simp [es_confidence]

/-- C3: match calls elk_log with no try/except, so a failing audit-sink
write propagates to the caller: with a sink whose write raises, match
returns the error instead of its MatchDecision. -/
theorem C3_sink_failure_propagates :
    match_fn ratio_zero dm0 sink_fail "Acme Corp" [] =
      .error ("IOError") := by
  simp [match_fn, es_confidence, string_similarity, phonetic_similarity,
    combined_score, THRESHOLD_ACCEPT, THRESHOLD_HIGH, sink_fail]

/-- C4 (amended): a bonus is awarded whenever the two compared phonetic
codes are equal as strings, with no emptiness guard: in particular,
whenever the alternate code of the query equals the primary code of some
candidate — including when both are empty — the best phonetic score is
at least the +60 bonus. -/
theorem C4_amended {dm : String → String × String} {q : String}
    {hits : List Hit} {h : Hit} (hmem : h ∈ hits)
    (heq : (dm q).2 = (dm h._source.company_name).1) :
    60 ≤ (phonetic_similarity dm q hits).2 := by
  cases hits with
  | nil => exact absurd hmem (by simp)
  | cons a t =>
    have hsc : 60 ≤ phonetic_sc dm (dm q).1 (dm q).2 h := by
      unfold phonetic_sc
      dsimp only
      rw [if_pos heq]
      split_ifs <;> omega
    simp only [phonetic_similarity]
    exact le_trans hsc
      (phonetic_foldl_mem dm (dm q).1 (dm q).2 (a :: t) (none, 0) h hmem)

/-- C4 (counterexample): the empty alternate code of the query compares
equal to the empty primary code of the candidate and earns the +60
bonus, so the comparison in which both sides are the empty code does
contribute: the score is 60, not 0 as the claim requires. -/
theorem C4_counterexample :
    phonetic_similarity dm0 "A" [⟨1, ⟨""⟩⟩] = (some ⟨1, ⟨""⟩⟩, 60) ∧
    (dm0 "A").2 = "" ∧ dm0 "" = ("", "") := by
  refine ⟨?_, ?_, ?_⟩
  · simp [phonetic_similarity, phonetic_step, phonetic_sc, dm0]
  · simp [dm0]
  · simp [dm0]

/-- C4 (witness): the amended statement applied where both compared
codes are empty. -/
theorem C4_amended_witness :
    60 ≤ (phonetic_similarity dm0 "A" [⟨1, ⟨""⟩⟩]).2 :=
  C4_amended (List.mem_singleton.mpr rfl) (by simp [dm0])

/-- C5: on an empty candidate list, match returns confidence 0.0, level
LOW, reason WEAK_MATCH, status REJECTED, absent matched name, and the
three signal computations all return (none, 0); the sink receives
exactly that decision. -/
theorem C5_empty_candidates {ratio : String → String → ℚ}
    {dm : String → String × String} {sink : LogEntry → Except String Unit}
    {q : String}
    (hsink : sink ⟨"match_decision", q, none, 0, Reason.WEAK_MATCH,
      Status.REJECTED⟩ = .ok ()) :
    match_fn ratio dm sink q [] =
      .ok ⟨none, 0, Level.LOW, Reason.WEAK_MATCH, Status.REJECTED⟩ ∧
    es_confidence [] = .ok (none, 0) ∧
    string_similarity ratio q [] = (none, 0) ∧
    phonetic_similarity dm q [] = (none, 0) := by
  refine ⟨?_, rfl, rfl, rfl⟩
  unfold match_fn
  simp only [es_confidence, string_similarity, phonetic_similarity,
    combined_score, List.foldl_nil]
  norm_num [THRESHOLD_ACCEPT, THRESHOLD_HIGH]
  rw [hsink]

/-- C5 (witness): the empty-candidate behaviour on a concrete query and
a succeeding sink. -/
theorem C5_witness :
    match_fn ratio_zero dm0 sink_ok "Acme Corp" [] =
      .ok ⟨none, 0, Level.LOW, Reason.WEAK_MATCH, Status.REJECTED⟩ ∧
    es_confidence [] = .ok (none, 0) ∧
    string_similarity ratio_zero "Acme Corp" [] = (none, 0) ∧
    phonetic_similarity dm0 "Acme Corp" [] = (none, 0) :=
  C5_empty_candidates rfl

/-- C6: whenever match returns status ACCEPTED, the matched name is the
canonical name of the top-ranked candidate (index 0, the dominance-best
hit), and absent when the list has no head. -/
theorem C6_accepted_top_hit {ratio : String → String → ℚ}
    {dm : String → String × String} {sink : LogEntry → Except String Unit}
    {q : String} {hits : List Hit} {d : MatchDecision}
    (hm : match_fn ratio dm sink q hits = .ok d)
    (hacc : d.status = Status.ACCEPTED) :
    d.matched = hits.head?.map (fun h => h._source.company_name) := by
  obtain ⟨es_c, -, -, -, -, hstat, hmat⟩ := match_fn_ok_spec hm
  rw [hstat] at hacc
  split at hacc
  · rename_i hc
    rw [hmat, if_pos hc]
  · exact absurd hacc (by simp)

/-- C6 (witness): an accepted concrete run returns the head candidate
name even though the runner-up has the higher relevance score. -/
theorem C6_witness :
    (MatchDecision.mk (some "A") (11/20) Level.MEDIUM
      Reason.HIGH_ES_CONFIDENCE Status.ACCEPTED).matched =
    ([⟨11, ⟨"A"⟩⟩, ⟨12, ⟨"B"⟩⟩] : List Hit).head?.map
      (fun h => h._source.company_name) := by
  refine @C6_accepted_top_hit ratio_zero dm0 sink_ok "Q"
    [⟨11, ⟨"A"⟩⟩, ⟨12, ⟨"B"⟩⟩]
    ⟨some "A", 11/20, Level.MEDIUM, Reason.HIGH_ES_CONFIDENCE,
      Status.ACCEPTED⟩ ?_ rfl
  simp [match_fn, es_confidence, string_similarity, string_step,
    phonetic_similarity, phonetic_step, phonetic_sc, combined_score,
    THRESHOLD_ACCEPT, THRESHOLD_HIGH, lower, ratio_zero, dm0, sink_ok]
  norm_num

/-- C8: the reason code is assigned in strict priority order:
HIGH_ES_CONFIDENCE when esC is at least the high threshold regardless of
the other signals, else STRING_SIMILARITY_USED when strS is at least 65,
else PHONETIC_FALLBACK_USED when phS is at least 50, else WEAK_MATCH. -/
theorem C8_reason_priority {ratio : String → String → ℚ}
    {dm : String → String × String} {sink : LogEntry → Except String Unit}
    {q : String} {hits : List Hit} {d : MatchDecision}
    {eb : Option Hit} {es_c : ℚ}
    (hes : es_confidence hits = .ok (eb, es_c))
    (hm : match_fn ratio dm sink q hits = .ok d) :
    (THRESHOLD_HIGH ≤ es_c → d.reason = Reason.HIGH_ES_CONFIDENCE) ∧
    (es_c < THRESHOLD_HIGH → (65 : ℚ) ≤ (string_similarity ratio q hits).2 →
      d.reason = Reason.STRING_SIMILARITY_USED) ∧
    (es_c < THRESHOLD_HIGH → (string_similarity ratio q hits).2 < 65 →
      50 ≤ (phonetic_similarity dm q hits).2 →
      d.reason = Reason.PHONETIC_FALLBACK_USED) ∧
    (es_c < THRESHOLD_HIGH → (string_similarity ratio q hits).2 < 65 →
      (phonetic_similarity dm q hits).2 < 50 →
      d.reason = Reason.WEAK_MATCH) := by
  obtain ⟨es_c2, hes2, -, -, hreason, -, -⟩ := match_fn_ok_spec hm
  rw [hes] at hes2
  simp only [Except.ok.injEq, Prod.mk.injEq] at hes2
  obtain ⟨-, rfl⟩ := hes2
  refine ⟨?_, ?_, ?_, ?_⟩
  · intro h1
    rw [hreason, if_pos h1]
  · intro h1 h2
    rw [hreason, if_neg (not_le.mpr h1), if_pos h2]
  · intro h1 h2 h3
    rw [hreason, if_neg (not_le.mpr h1), if_neg (not_le.mpr h2), if_pos h3]
  · intro h1 h2 h3
    rw [hreason, if_neg (not_le.mpr h1), if_neg (not_le.mpr h2),
      if_neg (not_le.mpr h3)]

/-- C8 (witness): a run with dominant ES confidence 11/12 gets reason
HIGH_ES_CONFIDENCE. -/
theorem C8_witness :
    (MatchDecision.mk (some "A") (11/20) Level.MEDIUM
      Reason.HIGH_ES_CONFIDENCE Status.ACCEPTED).reason =
      Reason.HIGH_ES_CONFIDENCE := by
  have hes : es_confidence [⟨11, ⟨"A"⟩⟩, ⟨12, ⟨"B"⟩⟩] =
      .ok (some ⟨11, ⟨"A"⟩⟩, 11/12) := by
    simp [es_confidence]
    norm_num
  have hm : match_fn ratio_zero dm0 sink_ok "Q"
      [⟨11, ⟨"A"⟩⟩, ⟨12, ⟨"B"⟩⟩] =
      .ok ⟨some "A", 11/20, Level.MEDIUM, Reason.HIGH_ES_CONFIDENCE,
        Status.ACCEPTED⟩ := by
    simp [match_fn, es_confidence, string_similarity, string_step,
      phonetic_similarity, phonetic_step, phonetic_sc, combined_score,
      THRESHOLD_ACCEPT, THRESHOLD_HIGH, lower, ratio_zero, dm0, sink_ok]
    norm_num
  exact (C8_reason_priority hes hm).1 (by norm_num [THRESHOLD_HIGH])

/-- C9: both decision thresholds are inclusive: combined equal to the
accept threshold yields status ACCEPTED, and combined equal to the high
threshold yields level HIGH. -/
theorem C9_thresholds_inclusive {ratio : String → String → ℚ}
    {dm : String → String × String} {sink : LogEntry → Except String Unit}
    {q : String} {hits : List Hit} {d : MatchDecision}
    (hm : match_fn ratio dm sink q hits = .ok d) :
    (d.confidence = THRESHOLD_ACCEPT → d.status = Status.ACCEPTED) ∧
    (d.confidence = THRESHOLD_HIGH → d.level = Level.HIGH) := by
  obtain ⟨es_c, -, -, hlevel, -, hstat, -⟩ := match_fn_ok_spec hm
  constructor
  · intro hc
    rw [hstat, if_pos (le_of_eq hc.symm)]
  · intro hc
    rw [hlevel, if_pos (le_of_eq hc.symm)]

/-- C9 (witness): concrete runs hitting the two thresholds exactly:
combined 11/20 = 0.55 is ACCEPTED and combined 3/4 = 0.75 is HIGH. -/
theorem C9_witness :
    (MatchDecision.mk (some "A") (11/20) Level.MEDIUM
      Reason.HIGH_ES_CONFIDENCE Status.ACCEPTED).status = Status.ACCEPTED ∧
    (MatchDecision.mk (some "Acme") (3/4) Level.HIGH
      Reason.HIGH_ES_CONFIDENCE Status.ACCEPTED).level = Level.HIGH := by
  have hm1 : match_fn ratio_zero dm0 sink_ok "Q"
      [⟨11, ⟨"A"⟩⟩, ⟨12, ⟨"B"⟩⟩] =
      .ok ⟨some "A", 11/20, Level.MEDIUM, Reason.HIGH_ES_CONFIDENCE,
        Status.ACCEPTED⟩ := by
    simp [match_fn, es_confidence, string_similarity, string_step,
      phonetic_similarity, phonetic_step, phonetic_sc, combined_score,
      THRESHOLD_ACCEPT, THRESHOLD_HIGH, lower, ratio_zero, dm0, sink_ok]
    norm_num
  have hm2 : match_fn ratio_fifty dm0 sink_ok "Quick"
      [⟨5, ⟨"Acme"⟩⟩] =
      .ok ⟨some "Acme", 3/4, Level.HIGH, Reason.HIGH_ES_CONFIDENCE,
        Status.ACCEPTED⟩ := by
    simp [match_fn, es_confidence, string_similarity, string_step,
      phonetic_similarity, phonetic_step, phonetic_sc, combined_score,
      THRESHOLD_ACCEPT, THRESHOLD_HIGH, lower, ratio_fifty, dm0, sink_ok]
    norm_num
  constructor
  · exact (C9_thresholds_inclusive hm1).1 (by norm_num [THRESHOLD_ACCEPT])
  · exact (C9_thresholds_inclusive hm2).2 (by norm_num [THRESHOLD_HIGH])

/-- C10: with the configured thresholds 0.55 < 0.75, the returned
decision has status ACCEPTED exactly when its level is HIGH or MEDIUM
(equivalently, level LOW exactly when status REJECTED). -/
theorem C10_accept_iff_level {ratio : String → String → ℚ}
    {dm : String → String × String} {sink : LogEntry → Except String Unit}
    {q : String} {hits : List Hit} {d : MatchDecision}
    (hm : match_fn ratio dm sink q hits = .ok d) :
    d.status = Status.ACCEPTED ↔
      (d.level = Level.HIGH ∨ d.level = Level.MEDIUM) := by
  obtain ⟨es_c, -, -, hlevel, -, hstat, -⟩ := match_fn_ok_spec hm
  rw [hstat, hlevel]
  rcases le_or_lt THRESHOLD_HIGH d.confidence with hh | hh
  · have ha : THRESHOLD_ACCEPT ≤ d.confidence :=
      le_trans (by norm_num [THRESHOLD_ACCEPT, THRESHOLD_HIGH]) hh
    rw [if_pos ha, if_pos hh]
    simp
  · rw [if_neg (not_le.mpr hh)]
    rcases le_or_lt THRESHOLD_ACCEPT d.confidence with ha | ha
    · rw [if_pos ha, if_pos ha]
      simp
    · rw [if_neg (not_le.mpr ha), if_neg (not_le.mpr ha)]
      simp

/-- C10 (witness): the equivalence on a concrete accepted run. -/
theorem C10_witness :
    (MatchDecision.mk (some "A") (11/20) Level.MEDIUM
      Reason.HIGH_ES_CONFIDENCE Status.ACCEPTED).status = Status.ACCEPTED ↔
    ((MatchDecision.mk (some "A") (11/20) Level.MEDIUM
      Reason.HIGH_ES_CONFIDENCE Status.ACCEPTED).level = Level.HIGH ∨
     (MatchDecision.mk (some "A") (11/20) Level.MEDIUM
      Reason.HIGH_ES_CONFIDENCE Status.ACCEPTED).level = Level.MEDIUM) := by
  refine @C10_accept_iff_level ratio_zero dm0 sink_ok "Q"
    [⟨11, ⟨"A"⟩⟩, ⟨12, ⟨"B"⟩⟩]
    ⟨some "A", 11/20, Level.MEDIUM, Reason.HIGH_ES_CONFIDENCE,
      Status.ACCEPTED⟩ ?_
  simp [match_fn, es_confidence, string_similarity, string_step,
    phonetic_similarity, phonetic_step, phonetic_sc, combined_score,
    THRESHOLD_ACCEPT, THRESHOLD_HIGH, lower, ratio_zero, dm0, sink_ok]
  norm_num

/-- C7: a candidate list with exactly one candidate gives dominance
confidence exactly 1.0 for that candidate, regardless of its relevance
score, including a score of 0. -/
theorem C7_single_candidate (h : Hit) :
    es_confidence [h] = .ok (some h, 1) := rfl

end CompanyMatch
